import Mathlib

/-!
Verification of the noslate control-plane core (worker status state machine,
broker water-level evaluation, starting pool, turf stop retries, starter
memory spec), shallowly embedded from the TypeScript sources.
-/

namespace Noslate

/-- Modelled from the spec: the `ContainerStatus` enum lives in
`src/lib/constants.ts`, which is not part of the available sources; the spec
fixes its ordering as Created < Ready < PendingStop < Stopped < Unknown, and
`worker.ts` compares statuses numerically with `<` and `>=`. -/
inductive ContainerStatus
  | Created
  | Ready
  | PendingStop
  | Stopped
  | Unknown
  deriving DecidableEq, Repr

namespace ContainerStatus

/-- Numeric value of a status, realizing the spec's ordering. -/
def val : ContainerStatus → Nat
  | .Created => 0
  | .Ready => 1
  | .PendingStop => 2
  | .Stopped => 3
  | .Unknown => 4

end ContainerStatus

/-- Modelled from the spec: the `ContainerStatusReport` enum from
`src/lib/constants.ts` (not among the sources); the three events consumed by
`Worker.updateContainerStatusByEvent` per the spec's status-report interface. -/
inductive ContainerStatusReport
  | ContainerInstalled
  | RequestDrained
  | ContainerDisconnected
  deriving DecidableEq, Repr

/-- Turf container states, from `src/lib/turf/types.ts` (`TurfContainerStates`). -/
inductive TurfContainerStates
  | init
  | starting
  | running
  | stopping
  | stopped
  | forkwait
  | cloning
  | unknown
  deriving DecidableEq, Repr

/-- `Worker.updateContainerStatus` from
`src/control_plane/worker_stats/worker.ts`: a transition to a strictly lower
status is rejected (logged and ignored); otherwise the status is set. -/
def updateContainerStatus (cur new : ContainerStatus) : ContainerStatus :=
  if new.val < cur.val then cur else new

/-- The event→status mapping inside `Worker.updateContainerStatusByEvent`. -/
def statusOfEvent : ContainerStatusReport → ContainerStatus
  | .ContainerInstalled => .Ready
  | .RequestDrained => .Stopped
  | .ContainerDisconnected => .Stopped

/-- `Worker.updateContainerStatusByEvent` from `worker.ts`. -/
def updateContainerStatusByEvent (cur : ContainerStatus)
    (event : ContainerStatusReport) : ContainerStatus :=
  updateContainerStatus cur (statusOfEvent event)

/-- The part of a worker's state that `switchTo` consults: the current
container status, the registration timestamp and the initialization timeout
(`worker.ts` private fields). -/
structure WorkerTimed where
  status : ContainerStatus
  registerTime : Int
  initializationTimeout : Int
  deriving DecidableEq, Repr

/-- `Worker.switchTo` from `worker.ts`: reacts to the turf-reported container
state (`null` meaning the process was not in `ps` output) at time `now`.
Only the resulting container status is modelled; the stored
`turfContainerStates` mirror and logging are omitted. -/
def switchTo (w : WorkerTimed) (turfState : Option TurfContainerStates)
    (now : Int) : ContainerStatus :=
  match turfState with
  | some .init | some .starting | some .cloning | some .running =>
    if now - w.registerTime > w.initializationTimeout
        ∧ w.status = .Created then
      updateContainerStatus w.status .Stopped
    else
      w.status
  | some .unknown => updateContainerStatus w.status .Unknown
  | some .stopping | some .stopped => updateContainerStatus w.status .Stopped
  | none =>
    if w.status = .Ready then updateContainerStatus w.status .Stopped
    else w.status
  | some .forkwait => w.status

/-- One status-affecting call on a worker: `updateContainerStatus`,
`updateContainerStatusByEvent`, or `switchTo` with a turf state at a time. -/
inductive WorkerStatusOp
  | update (s : ContainerStatus)
  | updateByEvent (e : ContainerStatusReport)
  | switchTo (ts : Option TurfContainerStates) (now : Int)

/-- Applying one status-affecting call to a timed worker state. -/
def applyStatusOp (w : WorkerTimed) : WorkerStatusOp → WorkerTimed
  | .update s => { w with status := updateContainerStatus w.status s }
  | .updateByEvent e =>
    { w with status := updateContainerStatusByEvent w.status e }
  | .switchTo ts now => { w with status := switchTo w ts now }

/-- Applying a sequence of status-affecting calls. -/
def applyStatusOps (w : WorkerTimed) (ops : List WorkerStatusOp) : WorkerTimed :=
  ops.foldl applyStatusOp w

/-- The state of a one-shot deferred (`createDeferred` in `lib/util`):
the first resolve/reject wins, later settlements are ignored. -/
inductive DeferredState
  | pending
  | resolved
  | rejected
  deriving DecidableEq, Repr

/-- Settling a deferred: only a pending deferred changes state. -/
def settle (d new : DeferredState) : DeferredState :=
  match d with
  | .pending => new
  | d => d

/-- The state relevant to `Worker.ready()` from `worker.ts`: container
status, registration time, initialization timeout, the ready deferred and
the pending `readyTimeout` timer deadline (if armed). -/
structure ReadyTracker where
  status : ContainerStatus
  registerTime : Int
  initializationTimeout : Int
  deferred : DeferredState
  readyTimeout : Option Int
  deriving DecidableEq, Repr

/-- A worker as the `Worker` constructor leaves it: status Created, ready
deferred pending, no timer armed. -/
def mkRegisteredWorker (registerTime initializationTimeout : Int) :
    ReadyTracker :=
  { status := .Created
    registerTime := registerTime
    initializationTimeout := initializationTimeout
    deferred := .pending
    readyTimeout := none }

/-- `Worker.ready()` called at time `now` (`worker.ts`): if the status is
already ≥ Ready the deferred is settled immediately (rejected when
≥ PendingStop, since the reject is issued first and the later resolve is
ignored); otherwise a timeout firing at
`now + initializationTimeout + 100` is armed. -/
def callReady (w : ReadyTracker) (now : Int) : ReadyTracker :=
  if ContainerStatus.Ready.val ≤ w.status.val then
    if ContainerStatus.PendingStop.val ≤ w.status.val then
      { w with deferred := settle (settle w.deferred .rejected) .resolved }
    else
      { w with deferred := settle w.deferred .resolved }
  else
    { w with readyTimeout := some (now + w.initializationTimeout + 100) }

/-- The `readyTimeout` callback from `Worker.ready()`: at its deadline, if
the status is not Ready, the worker is moved to Stopped (via
`updateContainerStatus` with a `ContainerDisconnected` event) and the ready
deferred is rejected with the initialization-timeout error. The timer is
disarmed once it fires. -/
def fireReadyTimeout (w : ReadyTracker) (now : Int) : ReadyTracker :=
  match w.readyTimeout with
  | none => w
  | some d =>
    if now = d then
      if w.status ≠ .Ready then
        { w with
          status := updateContainerStatus w.status .Stopped
          deferred := settle w.deferred .rejected
          readyTimeout := none }
      else { w with readyTimeout := none }
    else w

/-- `WorkerAdditionalData` from `worker.ts`: the per-worker counters reported
by the data plane. -/
structure WorkerAdditionalData where
  maxActivateRequests : Rat
  activeRequestCount : Rat
  deriving DecidableEq, Repr

/-- The view of a worker that the broker logic consults (`worker.ts` fields
`name`, `credential`, `containerStatus`, `registerTime`, `data`). -/
structure Worker where
  name : String
  credential : String
  containerStatus : ContainerStatus
  registerTime : Int
  data : Option WorkerAdditionalData
  deriving DecidableEq, Repr

/-- `Worker.isRunning` from `worker.ts`. -/
def Worker.isRunning (w : Worker) : Bool :=
  w.containerStatus = ContainerStatus.Ready
    || w.containerStatus = ContainerStatus.PendingStop

/-- `Worker.isInitializating` from `worker.ts`. -/
def Worker.isInitializating (w : Worker) : Bool :=
  w.containerStatus = ContainerStatus.Created

/-- `Worker.sync` from `worker.ts`: replaces the additional data with the
incoming stat, or clears it when the stat is `null`. -/
def Worker.sync (w : Worker) (data : Option WorkerAdditionalData) : Worker :=
  { w with data := data }

/-- The `worker` section of a function profile
(`RawFunctionProfile.worker` after `toJSON(true)` normalization). -/
structure ProfileWorkerData where
  maxActivateRequests : Rat
  replicaCountLimit : Int
  reservationCount : Nat
  deriving DecidableEq, Repr

/-- The slice of a function profile that the broker reads: the `worker`
section and `resourceLimit.memory`. -/
structure ProfileData where
  worker : ProfileWorkerData
  memory : Option Rat
  deriving DecidableEq, Repr

/-- `StartingPoolItem` from the worker_stats broker source. -/
structure StartingPoolItem where
  credential : String
  estimateRequestLeft : Rat
  maxActivateRequests : Rat
  deriving DecidableEq, Repr

/-- One entry of the data-plane `workerStats` push consumed by
`Broker.sync`. -/
structure WorkerStats where
  name : String
  maxActivateRequests : Rat
  activeRequestCount : Rat
  deriving DecidableEq, Repr

/-- The broker state (`Broker` from the worker_stats broker source):
function profile snapshot, inspector and disposable flags, worker map,
starting pool, shrink hysteresis counter, and the
`config.worker.shrinkRedundantTimes` configuration value it reads. The
JavaScript `Map`s are modelled as lists keyed by worker name. -/
structure Broker where
  data : Option ProfileData
  isInspector : Bool
  disposable : Bool
  workers : List Worker
  startingPool : List (String × StartingPoolItem)
  redundantTimes : Nat
  shrinkRedundantTimes : Nat
  deriving DecidableEq, Repr

namespace Broker

/-- `Broker.workerCount`: only running (Ready or PendingStop) workers count. -/
def workerCount (b : Broker) : Nat :=
  (b.workers.filter Worker.isRunning).length

/-- `Broker.totalMaxActivateRequests`: summed over running workers,
`worker.data?.maxActivateRequests || 0`. -/
def totalMaxActivateRequests (b : Broker) : Rat :=
  b.workers.foldl
    (fun m w =>
      if w.isRunning then m + ((w.data.map (·.maxActivateRequests)).getD 0)
      else m) 0

/-- `Broker.activeRequestCount`: summed over running workers,
`worker.data?.activeRequestCount || 0`. -/
def activeRequestCount (b : Broker) : Rat :=
  b.workers.foldl
    (fun a w =>
      if w.isRunning then a + ((w.data.map (·.activeRequestCount)).getD 0)
      else a) 0

/-- `Broker.reservationCount`: 1 for inspector brokers, 0 for disposable
brokers, otherwise the profile's `worker.reservationCount || 0`. -/
def reservationCount (b : Broker) : Nat :=
  if b.isInspector then 1
  else if b.disposable then 0
  else (b.data.map (·.worker.reservationCount)).getD 0

/-- `Broker.memoryLimit`: `this.data?.resourceLimit?.memory || 0`. -/
def memoryLimit (b : Broker) : Rat :=
  (b.data.bind (·.memory)).getD 0

/-- `Broker.virtualMemory = workerCount * memoryLimit`. -/
def virtualMemory (b : Broker) : Rat :=
  (b.workerCount : Rat) * b.memoryLimit

end Broker

/-- The `WaterLevelAction` computation at the head of
`Broker.evaluateWaterLevel`, with the enum encoded by its numeric values
(UNKNOWN = 0, NORMAL = 1, NEED_EXPAND = 2, NEED_SHRINK = 3) and JavaScript
`x || y` on enum values encoded as `if x ≠ 0 then x else y`. -/
def waterLevelAction (expansionOnly : Bool) (waterLevel : Rat)
    (workerCount reservationCount : Nat) (activeRequestCount : Rat) : Nat :=
  let w1 : Nat :=
    if expansionOnly then 0
    else
      let t : Nat :=
        if waterLevel ≤ 3/5 ∧ reservationCount < workerCount then 3 else 0
      if t = 3 ∧ workerCount = 1 ∧ activeRequestCount ≠ 0 then 1 else t
  let w2 : Nat := if waterLevel ≥ 4/5 then (if w1 ≠ 0 then w1 else 2) else w1
  if w2 ≠ 0 then w2 else 1

/-- The shrink-branch instance delta of `evaluateWaterLevel`:
`floor((totalMax − active/0.7) / maxActivateRequestsPerWorker)`, then reduced
so that at least `reservationCount` instances remain. -/
def shrinkDelta (arc tmar mar : Rat) (workerCount reservationCount : Nat) : Int :=
  let d0 : Int := Rat.floor ((tmar - arc / (7/10)) / mar)
  if (workerCount : Int) - d0 < (reservationCount : Int) then
    (workerCount : Int) - (reservationCount : Int)
  else d0

/-- The expand-branch instance delta of `evaluateWaterLevel`:
`ceil((active/0.7 − totalMax) / maxActivateRequestsPerWorker)`, clamped by the
replica count limit. -/
def expandDelta (arc tmar mar : Rat) (replicaCountLimit : Int)
    (workerCount : Nat) : Int :=
  let d0 : Int := Rat.ceil ((arc / (7/10) - tmar) / mar)
  if replicaCountLimit < (workerCount : Int) + d0 then
    replicaCountLimit - (workerCount : Int)
  else d0

/-- `Broker.evaluateWaterLevel` from the worker_stats broker source. Returns
the updated broker (the `redundantTimes` hysteresis counter is mutated) and
the integer delta (> 0 expand, < 0 shrink). -/
def Broker.evaluateWaterLevel (b : Broker) (expansionOnly : Bool) :
    Broker × Int :=
  if b.disposable then (b, 0)
  else
    match b.data with
    | none => (b, if expansionOnly then 0 else -(b.workers.length : Int))
    | some data =>
      if b.workerCount = 0 then (b, 0)
      else
        match waterLevelAction expansionOnly
            (b.activeRequestCount / b.totalMaxActivateRequests)
            b.workerCount b.reservationCount b.activeRequestCount with
        | 3 =>
          if b.redundantTimes + 1 ≥ b.shrinkRedundantTimes then
            ({ b with redundantTimes := 0 },
              -(shrinkDelta b.activeRequestCount b.totalMaxActivateRequests
                data.worker.maxActivateRequests b.workerCount
                b.reservationCount))
          else ({ b with redundantTimes := b.redundantTimes + 1 }, 0)
        | wla =>
          if wla ≠ 2 then ({ b with redundantTimes := 0 }, 0)
          else
            ({ b with redundantTimes := 0 },
              max (expandDelta b.activeRequestCount
                b.totalMaxActivateRequests data.worker.maxActivateRequests
                data.worker.replicaCountLimit b.workerCount) 0)

/-- Inserting a worker into the worker map (`Map.set` keyed by
`processName`, which is the worker's `name`). -/
def workersSet (l : List Worker) (w : Worker) : List Worker :=
  if l.any (fun x => x.name = w.name) then
    l.map (fun x => if x.name = w.name then w else x)
  else l ++ [w]

/-- Inserting an entry into the starting pool (`Map.set` keyed by
`processName`). -/
def poolSet (l : List (String × StartingPoolItem)) (name : String)
    (it : StartingPoolItem) : List (String × StartingPoolItem) :=
  if l.any (fun e => e.1 = name) then
    l.map (fun e => if e.1 = name then (name, it) else e)
  else l ++ [(name, it)]

/-- `Broker.register` from the worker_stats broker source: requires the
profile to exist (otherwise the source throws, modelled as `none`);
constructs a Created worker and a starting-pool entry seeded with the
profile's `maxActivateRequests`. -/
def Broker.register (b : Broker) (processName credential : String)
    (registerTime : Int) : Option Broker :=
  match b.data with
  | none => none
  | some data =>
    let w : Worker :=
      { name := processName
        credential := credential
        containerStatus := .Created
        registerTime := registerTime
        data := none }
    some { b with
      workers := workersSet b.workers w
      startingPool := poolSet b.startingPool processName
        { credential := credential
          estimateRequestLeft := data.worker.maxActivateRequests
          maxActivateRequests := data.worker.maxActivateRequests } }

/-- `Broker.removeItemFromStartingPool`. -/
def Broker.removeItemFromStartingPool (b : Broker) (processName : String) :
    Broker :=
  { b with startingPool := b.startingPool.filter (fun e => e.1 ≠ processName) }

/-- `Broker.unregister`: removes the worker from both maps (the turf
`destroy` side effect is outside the model). -/
def Broker.unregister (b : Broker) (name : String) : Broker :=
  { b with
    workers := b.workers.filter (fun w => w.name ≠ name)
    startingPool := b.startingPool.filter (fun e => e.1 ≠ name) }

/-- `Broker.updateWorkerContainerStatus`: delegates to the named worker's
`updateContainerStatus`; a missing worker is a no-op (`worker?.`). -/
def Broker.updateWorkerContainerStatus (b : Broker) (workerName : String)
    (status : ContainerStatus) : Broker :=
  { b with
    workers := b.workers.map (fun w =>
      if w.name = workerName then
        { w with containerStatus := updateContainerStatus w.containerStatus status }
      else w) }

/-- The first loop of `Broker.sync`: walks the incoming stats; a stat whose
name matches a not-yet-consumed worker moves that worker (with its data
replaced by the stat) into the new map and deletes it from the old map; a
stat that matches nothing is skipped. Returns the new map prefix and the
workers left unmatched. -/
def syncMatch : List WorkerStats → List Worker → List Worker × List Worker
  | [], remaining => ([], remaining)
  | item :: rest, remaining =>
    match remaining.find? (fun w => w.name = item.name) with
    | none => syncMatch rest remaining
    | some w =>
      let r := syncMatch rest (remaining.eraseP (fun w => w.name = item.name))
      (w.sync (some ⟨item.maxActivateRequests, item.activeRequestCount⟩)
          :: r.1,
        r.2)

/-- The starting-pool loop of `Broker.sync`: each entry is looked up in the
new worker map (the source crashes if it is missing, modelled as `none`);
entries whose worker is no longer initializing are removed, entries whose
worker has data get `estimateRequestLeft = max − active` refreshed. -/
def syncPool : List (String × StartingPoolItem) → List Worker →
    Option (List (String × StartingPoolItem))
  | [], _ => some []
  | (n, it) :: rest, ws =>
    match ws.find? (fun w => w.name = n) with
    | none => none
    | some w =>
      if w.isInitializating then
        let it' := match w.data with
          | some d =>
            { it with
              maxActivateRequests := d.maxActivateRequests
              estimateRequestLeft :=
                d.maxActivateRequests - d.activeRequestCount }
          | none => it
        (syncPool rest ws).map (fun tail => (n, it') :: tail)
      else syncPool rest ws

/-- `Broker.sync` from the worker_stats broker source: refreshes the profile
snapshot (`newData` is what `profiles.get(name)?.toJSON(true)` returned),
replaces matched workers' data with the incoming stats, nulls the data of
unmatched workers, and prunes/refreshes the starting pool. -/
def Broker.sync (b : Broker) (newData : Option ProfileData)
    (stats : List WorkerStats) : Option Broker :=
  let r := syncMatch stats b.workers
  let newWorkers := r.1 ++ r.2.map (fun w => w.sync none)
  (syncPool b.startingPool newWorkers).map (fun pool =>
    { b with data := newData, workers := newWorkers, startingPool := pool })

/-- Turf return code `ENOENT` (linux), from `src/lib/turf/types.ts`. -/
def turfENOENT : Int := -2

/-- Turf return code `ECHILD`, from `src/lib/turf/types.ts`. -/
def turfECHILD : Int := -10

/-- Turf return code `EAGAIN` (linux), from `src/lib/turf/types.ts`. -/
def turfEAGAIN : Int := -11

/-- Turf return code `EINVAL`, from `src/lib/turf/types.ts`. -/
def turfEINVAL : Int := -22

/-- `TurfStopIgnorableCodes` from `src/lib/turf/wrapper.ts`. -/
def turfStopIgnorableCodes : List Int := [turfECHILD, turfENOENT]

/-- `TurfStopRetryableCodes` from `src/lib/turf/wrapper.ts`. -/
def turfStopRetryableCodes : List Int := [turfEAGAIN]

/-- Observable actions of `Turf.stop`: the initial graceful stop attempt,
the 1-second sleep, and a forced stop attempt. -/
inductive StopAction
  | graceful
  | sleep1s
  | forceStop
  deriving DecidableEq, Repr

/-- `Turf.#stop` from `wrapper.ts`: issues one stop command whose raw return
code is given; code 0 is success, ignorable codes are swallowed
(success), anything else is thrown. -/
def turfStopOnce (code : Int) : Option Int :=
  if code = 0 then none
  else if code ∈ turfStopIgnorableCodes then none
  else some code

/-- The retry loop of `Turf.stop`: up to `retry` forced stop attempts, each
preceded by a 1-second sleep, consuming successive raw return codes
`att i, att (i+1), …`. An error on the last attempt or a non-retryable
error ends the loop with the error swallowed (the loop returns normally);
a retryable error (or a success) lets the loop continue. -/
def stopRetryLoop (att : Nat → Int) (i : Nat) :
    Nat → List StopAction × Option Int
  | 0 => ([], none)
  | retry + 1 =>
    match turfStopOnce (att i) with
    | none =>
      let r := stopRetryLoop att (i + 1) retry
      (StopAction.sleep1s :: StopAction.forceStop :: r.1, r.2)
    | some c =>
      if retry = 0 ∨ c ∉ turfStopRetryableCodes then
        ([StopAction.sleep1s, StopAction.forceStop], none)
      else
        let r := stopRetryLoop att (i + 1) retry
        (StopAction.sleep1s :: StopAction.forceStop :: r.1, r.2)

/-- `Turf.stop` from `wrapper.ts`, the raw return codes of the successive
underlying stop commands given by `att` (index 0 is the graceful attempt).
Returns the observable action trace together with `some code` when the call
rejects and `none` when it returns normally. -/
def turfStop (att : Nat → Int) : List StopAction × Option Int :=
  match turfStopOnce (att 0) with
  | none => ([StopAction.graceful], none)
  | some c =>
    if c ∉ turfStopRetryableCodes then ([StopAction.graceful], some c)
    else
      let r := stopRetryLoop att 1 3
      (StopAction.graceful :: r.1, r.2)

/-- The `linux.resources.memory.limit` value written into the bundle's
`config.json` by `BaseStarter.doStart` (`starter/base.ts`): the template
value is overridden by the profile's `resourceLimit.memory` when present,
and multiplied by 100 in inspect mode. -/
def doStartSpecMemoryLimit (templateMemoryLimit : Rat)
    (profileMemory : Option Rat) (inspect : Bool) : Rat :=
  let base := match profileMemory with
    | some m => m
    | none => templateMemoryLimit
  if inspect then base * 100 else base

/-- Modelled from the spec: `CapacityManager.autoScale`'s expansion phase
(§4.6, the capacity manager source is not among the available files). For a
broker with positive delta, the launch count is admission-checked against
the remaining virtual memory budget: if `delta × memoryLimit + used > pool`
the delta is reduced to `floor((pool − used) / memoryLimit)`. -/
def autoScaleExpandCount (delta : Int) (memoryLimit used pool : Rat) : Int :=
  if (delta : Rat) * memoryLimit + used > pool then
    Rat.floor ((pool - used) / memoryLimit)
  else delta

/-- The scenario-S2 function profile: `maxActivateRequests = 10`,
`replicaCountLimit = 10`, `reservationCount = 0`, memory 512 MiB. -/
def s2Profile : ProfileData :=
  { worker :=
      { maxActivateRequests := 10
        replicaCountLimit := 10
        reservationCount := 0 }
    memory := some 536870912 }

/-- A Ready scenario-S2 worker with `activeRequestCount = 10` out of
`maxActivateRequests = 10`. -/
def s2Worker (name credential : String) : Worker :=
  { name := name
    credential := credential
    containerStatus := .Ready
    registerTime := 0
    data := some { maxActivateRequests := 10, activeRequestCount := 10 } }

/-- The scenario-S2 broker: two Ready workers for `func`, each fully
loaded. -/
def s2Broker : Broker :=
  { data := some s2Profile
    isInspector := false
    disposable := false
    workers := [s2Worker "hello" "world", s2Worker "foo" "bar"]
    startingPool := []
    redundantTimes := 0
    shrinkRedundantTimes := 60 }

/-- A broker whose function profile has been removed, retaining one worker
still in Created state (hence not counted by `workerCount`). -/
def drainBroker : Broker :=
  { data := none
    isInspector := false
    disposable := false
    workers :=
      [{ name := "w1"
         credential := "c1"
         containerStatus := .Created
         registerTime := 0
         data := none }]
    startingPool := []
    redundantTimes := 0
    shrinkRedundantTimes := 60 }

/-- A Ready worker with `activeRequestCount = 1` out of 10, for the shrink
scenario S4. -/
def s4Worker (name credential : String) : Worker :=
  { name := name
    credential := credential
    containerStatus := .Ready
    registerTime := 0
    data := some { maxActivateRequests := 10, activeRequestCount := 1 } }

/-- The scenario-S4 broker after 59 shrink-eligible evaluations: two
Ready workers each with one active request, `redundantTimes = 59`. -/
def s4Broker : Broker :=
  { data := some s2Profile
    isInspector := false
    disposable := false
    workers := [s4Worker "hello" "world", s4Worker "foo" "bar"]
    startingPool := []
    redundantTimes := 59
    shrinkRedundantTimes := 60 }

/-- A freshly registered broker state: one Created worker together with its
starting-pool entry. -/
def freshBroker : Broker :=
  { data := some s2Profile
    isInspector := false
    disposable := false
    workers :=
      [{ name := "hello"
         credential := "world"
         containerStatus := .Created
         registerTime := 0
         data := none }]
    startingPool :=
      [("hello",
        { credential := "world"
          estimateRequestLeft := 10
          maxActivateRequests := 10 })]
    redundantTimes := 0
    shrinkRedundantTimes := 60 }

/-- Every starting-pool entry has a corresponding worker in the worker
map. -/
def Broker.startingPoolBacked (b : Broker) : Prop :=
  ∀ e ∈ b.startingPool, ∃ w ∈ b.workers, w.name = e.1

/-- Every starting-pool entry has a corresponding worker in the worker map
whose container status is still Created. -/
def Broker.startingPoolCreated (b : Broker) : Prop :=
  ∀ e ∈ b.startingPool, ∃ w ∈ b.workers,
    w.name = e.1 ∧ w.containerStatus = ContainerStatus.Created

instance (b : Broker) : Decidable b.startingPoolBacked := by
  unfold Broker.startingPoolBacked
  infer_instance

instance (b : Broker) : Decidable b.startingPoolCreated := by
  unfold Broker.startingPoolCreated
  infer_instance

/-- A data-plane stats push for the fresh broker: one stat matching the
Created worker `hello` and one stat (`ghost`) matching no worker. -/
def syncStats : List WorkerStats :=
  [{ name := "hello", maxActivateRequests := 10, activeRequestCount := 0 },
   { name := "ghost", maxActivateRequests := 10, activeRequestCount := 1 }]

/-- The expected result of syncing `freshBroker` with `syncStats`: the same
single worker, its data replaced by the matching stat; the `ghost` stat is
ignored; the starting-pool entry is kept (worker still Created) with its
estimate refreshed. -/
def syncedBroker : Broker :=
  { data := some s2Profile
    isInspector := false
    disposable := false
    workers :=
      [{ name := "hello"
         credential := "world"
         containerStatus := .Created
         registerTime := 0
         data := some { maxActivateRequests := 10, activeRequestCount := 0 } }]
    startingPool :=
      [("hello",
        { credential := "world"
          estimateRequestLeft := 10
          maxActivateRequests := 10 })]
    redundantTimes := 0
    shrinkRedundantTimes := 60 }

end Noslate

namespace Noslate

lemma updateContainerStatus_val_le (cur new : ContainerStatus) :
    cur.val ≤ (updateContainerStatus cur new).val := by
  unfold updateContainerStatus
  split <;> omega

lemma switchTo_val_le (w : WorkerTimed) (ts : Option TurfContainerStates)
    (now : Int) : w.status.val ≤ (switchTo w ts now).val := by
  rcases ts with _ | ts
  · simp only [switchTo]
    split
    · exact updateContainerStatus_val_le _ _
    · exact le_refl _
  · cases ts <;> simp only [switchTo] <;>
      first
        | exact updateContainerStatus_val_le _ _
        | exact le_refl _
        | (split
           · exact updateContainerStatus_val_le _ _
           · exact le_refl _)

lemma applyStatusOp_val_le (w : WorkerTimed) (op : WorkerStatusOp) :
    w.status.val ≤ (applyStatusOp w op).status.val := by
  cases op with
  | update s => exact updateContainerStatus_val_le _ _
  | updateByEvent e => exact updateContainerStatus_val_le _ _
  | switchTo ts now => exact switchTo_val_le w ts now

lemma applyStatusOps_val_le (w : WorkerTimed) (ops : List WorkerStatusOp) :
    w.status.val ≤ (applyStatusOps w ops).status.val := by
  induction ops generalizing w with
  | nil => exact le_refl _
  | cons op rest ih =>
    exact le_trans (applyStatusOp_val_le w op) (ih (applyStatusOp w op))

lemma waterLevelAction_expand (expansionOnly : Bool) (waterLevel : Rat)
    (workerCount reservationCount : Nat) (activeRequestCount : Rat)
    (h : waterLevel ≥ 4/5) :
    waterLevelAction expansionOnly waterLevel workerCount reservationCount
      activeRequestCount = 2 := by
  have h2 : ¬ waterLevel ≤ 3/5 := by
    intro hle
    have : (4 : Rat)/5 ≤ 3/5 := le_trans h hle
    norm_num at this
  unfold waterLevelAction
  cases expansionOnly <;> simp [h, h2]

lemma waterLevelAction_shrink (waterLevel : Rat)
    (workerCount reservationCount : Nat) (activeRequestCount : Rat)
    (h1 : waterLevel ≤ 3/5) (h2 : reservationCount < workerCount)
    (h3 : ¬ (workerCount = 1 ∧ activeRequestCount ≠ 0)) :
    waterLevelAction false waterLevel workerCount reservationCount
      activeRequestCount = 3 := by
  unfold waterLevelAction
  simp [h1, h2, h3]

lemma stopRetryLoop_swallows (att : Nat → Int) (i retry : Nat) :
    (stopRetryLoop att i retry).2 = none := by
  induction retry generalizing i with
  | zero => rfl
  | succ r ih =>
    unfold stopRetryLoop
    cases turfStopOnce (att i) with
    | none => exact ih (i + 1)
    | some c =>
      dsimp only
      split
      · rfl
      · exact ih (i + 1)

lemma find?_eraseP_perm {α : Type} (p : α → Bool) (l : List α) (a : α)
    (h : l.find? p = some a) : l.Perm (a :: l.eraseP p) := by
  induction l with
  | nil => simp at h
  | cons x t ih =>
    by_cases hx : p x
    · rw [List.find?_cons_of_pos _ hx] at h
      obtain rfl := Option.some.inj h
      rw [List.eraseP_cons_of_pos hx]
    · rw [List.find?_cons_of_neg _ hx] at h
      rw [List.eraseP_cons_of_neg hx]
      exact ((ih h).cons x).trans (List.Perm.swap a x _)

lemma mem_eraseP_name {ws : List Worker} {nm : String}
    (hnd : (ws.map Worker.name).Nodup) :
    ∀ w ∈ ws.eraseP (fun w => w.name = nm), w ∈ ws ∧ w.name ≠ nm := by
  induction ws with
  | nil => simp
  | cons x t ih =>
    simp only [List.map_cons, List.nodup_cons] at hnd
    by_cases hx : x.name = nm
    · rw [List.eraseP_cons_of_pos (by simp [hx])]
      intro w hw
      refine ⟨List.mem_cons_of_mem x hw, ?_⟩
      intro hwnm
      exact hnd.1 (List.mem_map.mpr ⟨w, hw, by rw [hwnm, hx]⟩)
    · rw [List.eraseP_cons_of_neg (by simp [hx])]
      intro w hw
      rcases List.mem_cons.mp hw with rfl | hw
      · exact ⟨List.mem_cons_self _ _, hx⟩
      · obtain ⟨h1, h2⟩ := ih hnd.2 w hw
        exact ⟨List.mem_cons_of_mem x h1, h2⟩

lemma eraseP_name_nodup {ws : List Worker} {nm : String}
    (hnd : (ws.map Worker.name).Nodup) :
    ((ws.eraseP (fun w => w.name = nm)).map Worker.name).Nodup :=
  hnd.sublist ((List.eraseP_sublist _).map _)

lemma syncMatch_names_perm (stats : List WorkerStats) (ws : List Worker) :
    (((syncMatch stats ws).1 ++ (syncMatch stats ws).2).map Worker.name).Perm
      (ws.map Worker.name) := by
  induction stats generalizing ws with
  | nil => simp [syncMatch]
  | cons item rest ih =>
    unfold syncMatch
    cases hf : ws.find? (fun w => w.name = item.name) with
    | none => simpa using ih ws
    | some w =>
      dsimp only
      have hperm := (find?_eraseP_perm _ ws w hf).map Worker.name
      have ih' := ih (ws.eraseP (fun w => w.name = item.name))
      simp only [List.cons_append, List.map_cons]
      exact (ih'.cons w.name).trans hperm.symm

lemma syncMatch_matched_spec (stats : List WorkerStats) (ws : List Worker)
    (hnd : (ws.map Worker.name).Nodup) :
    ∀ w' ∈ (syncMatch stats ws).1, ∃ w ∈ ws,
      w'.name = w.name ∧ w'.credential = w.credential
      ∧ w'.containerStatus = w.containerStatus
      ∧ w'.registerTime = w.registerTime
      ∧ w'.data = (stats.find? (fun s => s.name = w.name)).map
          (fun s => { maxActivateRequests := s.maxActivateRequests
                      activeRequestCount := s.activeRequestCount }) := by
  induction stats generalizing ws with
  | nil => simp [syncMatch]
  | cons item rest ih =>
    intro w' hw'
    unfold syncMatch at hw'
    cases hf : ws.find? (fun w => w.name = item.name) with
    | none =>
      rw [hf] at hw'
      obtain ⟨w, hwmem, hnm, hcred, hcs, hrt, hdata⟩ := ih ws hnd w' hw'
      refine ⟨w, hwmem, hnm, hcred, hcs, hrt, ?_⟩
      rw [List.find?_cons_of_neg, hdata]
      have := List.find?_eq_none.mp hf w hwmem
      simpa using fun h => this (by simp [h])
    | some w0 =>
      rw [hf] at hw'
      rcases List.mem_cons.mp hw' with rfl | hw'
      · have hw0nm : w0.name = item.name := by
          simpa using List.find?_some hf
        refine ⟨w0, List.mem_of_find?_eq_some hf, rfl, rfl, rfl, rfl, ?_⟩
        rw [List.find?_cons_of_pos _ (by simp [hw0nm])]
        rfl
      · obtain ⟨w, hwmem, hnm, hcred, hcs, hrt, hdata⟩ :=
          ih _ (eraseP_name_nodup hnd) w' hw'
        obtain ⟨hmem, hne⟩ := mem_eraseP_name hnd w hwmem
        refine ⟨w, hmem, hnm, hcred, hcs, hrt, ?_⟩
        rw [List.find?_cons_of_neg _ (by simpa using fun h => hne h.symm),
          hdata]

lemma syncMatch_unmatched_spec (stats : List WorkerStats) (ws : List Worker)
    (hnd : (ws.map Worker.name).Nodup) :
    ∀ w ∈ (syncMatch stats ws).2, w ∈ ws
      ∧ stats.find? (fun s => s.name = w.name) = none := by
  induction stats generalizing ws with
  | nil =>
    intro w hw
    exact ⟨by simpa [syncMatch] using hw, rfl⟩
  | cons item rest ih =>
    intro w hw
    unfold syncMatch at hw
    cases hf : ws.find? (fun x => x.name = item.name) with
    | none =>
      rw [hf] at hw
      obtain ⟨hmem, hnone⟩ := ih ws hnd w hw
      refine ⟨hmem, ?_⟩
      rw [List.find?_cons_of_neg, hnone]
      have := List.find?_eq_none.mp hf w hmem
      simpa using fun h => this (by simp [h])
    | some w0 =>
      rw [hf] at hw
      obtain ⟨hmem, hnone⟩ := ih _ (eraseP_name_nodup hnd) w hw
      obtain ⟨hmem', hne⟩ := mem_eraseP_name hnd w hmem
      refine ⟨hmem', ?_⟩
      rw [List.find?_cons_of_neg _ (by simpa using fun h => hne h.symm),
        hnone]

lemma syncPool_isSome (pool : List (String × StartingPoolItem))
    (ws : List Worker) (h : ∀ e ∈ pool, ∃ w ∈ ws, w.name = e.1) :
    (syncPool pool ws).isSome := by
  induction pool with
  | nil => simp [syncPool]
  | cons e rest ih =>
    obtain ⟨n, it⟩ := e
    have hex : ∃ w ∈ ws, w.name = n := by
      simpa using h (n, it) (List.mem_cons_self _ _)
    have hfind : (ws.find? (fun w => w.name = n)).isSome :=
      List.find?_isSome.mpr (by simpa using hex)
    unfold syncPool
    cases hf : ws.find? (fun w => w.name = n) with
    | none => rw [hf] at hfind; simp at hfind
    | some w =>
      have ih' := ih (fun e he => h e (List.mem_cons_of_mem _ he))
      dsimp only
      split
      · cases htail : syncPool rest ws with
        | none => rw [htail] at ih'; simp at ih'
        | some tail => simp
      · exact ih'

lemma syncPool_spec (pool : List (String × StartingPoolItem))
    (ws : List Worker) (pool' : List (String × StartingPoolItem))
    (h : syncPool pool ws = some pool') :
    ∀ e ∈ pool', ∃ w ∈ ws,
      w.name = e.1 ∧ w.containerStatus = ContainerStatus.Created := by
  induction pool generalizing pool' with
  | nil =>
    obtain rfl : pool' = [] := by simpa [syncPool] using h.symm
    simp
  | cons e rest ih =>
    obtain ⟨n, it⟩ := e
    unfold syncPool at h
    cases hf : ws.find? (fun w => w.name = n) with
    | none => rw [hf] at h; simp at h
    | some w =>
      rw [hf] at h
      dsimp only at h
      by_cases hini : w.isInitializating
      · rw [if_pos hini] at h
        cases htail : syncPool rest ws with
        | none => rw [htail] at h; simp at h
        | some tail =>
          rw [htail] at h
          simp only [Option.map_some'] at h
          obtain rfl := Option.some.inj h
          intro e' he'
          rcases List.mem_cons.mp he' with rfl | he'
          · refine ⟨w, List.mem_of_find?_eq_some hf, ?_, ?_⟩
            · simpa using List.find?_some hf
            · simpa [Worker.isInitializating] using hini
          · exact ih tail htail e' he'
      · rw [if_neg hini] at h
        exact ih pool' h

lemma poolSet_mem {pool : List (String × StartingPoolItem)} {n : String}
    {it : StartingPoolItem} :
    ∀ e ∈ poolSet pool n it, e = (n, it) ∨ (e ∈ pool ∧ e.1 ≠ n) := by
  intro e he
  unfold poolSet at he
  by_cases hany : pool.any (fun e => e.1 = n)
  · rw [if_pos hany] at he
    obtain ⟨e0, he0, heq⟩ := List.mem_map.mp he
    by_cases h0 : e0.1 = n
    · left
      rw [← heq, if_pos (by simp [h0])]
    · right
      rw [← heq, if_neg (by simp [h0])]
      exact ⟨he0, h0⟩
  · rw [if_neg hany] at he
    rcases List.mem_append.mp he with he | he
    · right
      refine ⟨he, ?_⟩
      intro hn
      exact hany (List.any_eq_true.mpr ⟨e, he, by simp [hn]⟩)
    · left
      simpa using he

lemma workersSet_self_mem (ws : List Worker) (w : Worker) :
    w ∈ workersSet ws w := by
  unfold workersSet
  by_cases hany : ws.any (fun x => x.name = w.name)
  · rw [if_pos hany]
    obtain ⟨x, hx, hxn⟩ := List.any_eq_true.mp hany
    refine List.mem_map.mpr ⟨x, hx, ?_⟩
    rw [if_pos (by simpa using hxn)]
  · rw [if_neg hany]
    exact List.mem_append.mpr (Or.inr (List.mem_singleton.mpr rfl))

lemma workersSet_mem_other {ws : List Worker} {w x : Worker}
    (hx : x ∈ ws) (hne : x.name ≠ w.name) : x ∈ workersSet ws w := by
  unfold workersSet
  by_cases hany : ws.any (fun y => y.name = w.name)
  · rw [if_pos hany]
    refine List.mem_map.mpr ⟨x, hx, ?_⟩
    rw [if_neg (by simp [hne])]
  · rw [if_neg hany]
    exact List.mem_append.mpr (Or.inl hx)

lemma turfStop_some (att : Nat → Int) (c : Int)
    (h : turfStopOnce (att 0) = some c) :
    turfStop att
      = if c ∉ turfStopRetryableCodes then ([StopAction.graceful], some c)
        else (StopAction.graceful :: (stopRetryLoop att 1 3).1,
          (stopRetryLoop att 1 3).2) := by
  unfold turfStop
  rw [h]

lemma s2Broker_eval_delta_eq_one : (s2Broker.evaluateWaterLevel false).2 = 1 := by
  unfold Broker.evaluateWaterLevel
  rw [show s2Broker.data = some s2Profile from rfl,
    show s2Broker.disposable = false from rfl,
    waterLevelAction_expand false _ _ _ _
      (by
        norm_num [s2Broker, s2Worker, s2Profile, Broker.activeRequestCount,
          Broker.totalMaxActivateRequests, Worker.isRunning])]
  simp only [Bool.false_eq_true, if_false,
    if_neg (show ¬ s2Broker.workerCount = 0 by decide), ne_eq,
    OfNat.ofNat_ne_zero]
  show max (expandDelta _ _ _ _ _) 0 = 1
  norm_num [expandDelta, s2Broker, s2Worker, s2Profile,
    Broker.activeRequestCount, Broker.totalMaxActivateRequests,
    Broker.workerCount, Worker.isRunning, Rat.ceil]

end Noslate

section WaterLevelClaims

open Noslate

/-- C2: with a profile, a nonzero running-worker count and water level at
least 0.8, `evaluateWaterLevel` returns
`max 0 (min (ceil((active/0.7 − totalMax) / maxActivateRequestsPerWorker))
(replicaCountLimit − workerCount))` and resets `redundantTimes` to 0;
in particular the result is 0 when the worker count already equals the
replica count limit. -/
theorem evaluateWaterLevel_expand_formula (b : Broker) (p : ProfileData)
    (expansionOnly : Bool)
    (hd : b.data = some p) (hdisp : b.disposable = false)
    (hwc : b.workerCount ≠ 0)
    (hwl : 4/5 ≤ b.activeRequestCount / b.totalMaxActivateRequests) :
    (b.evaluateWaterLevel expansionOnly).2
      = max 0 (min
          (Rat.ceil ((b.activeRequestCount / (7/10)
              - b.totalMaxActivateRequests) / p.worker.maxActivateRequests))
          (p.worker.replicaCountLimit - (b.workerCount : Int)))
    ∧ (b.evaluateWaterLevel expansionOnly).1.redundantTimes = 0 := by
  unfold Broker.evaluateWaterLevel
  rw [hd, hdisp,
    waterLevelAction_expand expansionOnly _ _ _ _ hwl]
  simp only [Bool.false_eq_true, if_false, hwc, if_neg (hwc ·), ne_eq,
    OfNat.ofNat_ne_zero]
  constructor
  · show max (expandDelta _ _ _ _ _) 0 = _
    unfold expandDelta
    generalize Rat.ceil ((b.activeRequestCount / (7 / 10)
      - b.totalMaxActivateRequests) / p.worker.maxActivateRequests) = d0
    simp only [max_def, min_def]
    split_ifs <;> omega
  · rfl

/-- Witness for C2 at the concrete scenario-S2 broker (two fully loaded
Ready workers): all hypotheses hold and the returned delta is the claimed
clamped ceiling. -/
theorem evaluateWaterLevel_expand_formula_witness :
    s2Broker.workerCount ≠ 0
    ∧ 4/5 ≤ s2Broker.activeRequestCount / s2Broker.totalMaxActivateRequests
    ∧ ((s2Broker.evaluateWaterLevel false).2
        = max 0 (min
            (Rat.ceil ((s2Broker.activeRequestCount / (7/10)
                - s2Broker.totalMaxActivateRequests)
              / s2Profile.worker.maxActivateRequests))
            (s2Profile.worker.replicaCountLimit - (s2Broker.workerCount : Int)))
      ∧ (s2Broker.evaluateWaterLevel false).1.redundantTimes = 0) :=
  ⟨by decide,
    by
      norm_num [s2Broker, s2Worker, s2Profile, Broker.activeRequestCount,
        Broker.totalMaxActivateRequests, Worker.isRunning],
    evaluateWaterLevel_expand_formula s2Broker s2Profile false rfl rfl
      (by decide)
      (by
        norm_num [s2Broker, s2Worker, s2Profile, Broker.activeRequestCount,
          Broker.totalMaxActivateRequests, Worker.isRunning])⟩

/-- C4: with a profile, water level at most 0.6, more running workers than
the reservation count, not the single-worker-with-requests exception, and
`expansionOnly = false`, `evaluateWaterLevel` increments `redundantTimes`
and returns 0 while the incremented counter is still below
`shrinkRedundantTimes`; once it reaches `shrinkRedundantTimes` it returns
`−delta` with `delta = floor((totalMax − active/0.7) /
maxActivateRequestsPerWorker)` reduced so that at least `reservationCount`
workers remain, and resets `redundantTimes` to 0. -/
theorem evaluateWaterLevel_shrink_hysteresis (b : Broker) (p : ProfileData)
    (hd : b.data = some p) (hdisp : b.disposable = false)
    (hwl : b.activeRequestCount / b.totalMaxActivateRequests ≤ 3/5)
    (hrc : b.reservationCount < b.workerCount)
    (hexc : ¬ (b.workerCount = 1 ∧ b.activeRequestCount ≠ 0)) :
    if b.redundantTimes + 1 < b.shrinkRedundantTimes then
      (b.evaluateWaterLevel false).2 = 0
        ∧ (b.evaluateWaterLevel false).1.redundantTimes
            = b.redundantTimes + 1
    else
      (b.evaluateWaterLevel false).2
          = -(min
              (Rat.floor ((b.totalMaxActivateRequests
                  - b.activeRequestCount / (7/10))
                / p.worker.maxActivateRequests))
              ((b.workerCount : Int) - (b.reservationCount : Int)))
        ∧ (b.evaluateWaterLevel false).1.redundantTimes = 0 := by
  have hwc : b.workerCount ≠ 0 := by omega
  unfold Broker.evaluateWaterLevel
  rw [hd, hdisp, waterLevelAction_shrink _ _ _ _ hwl hrc hexc]
  simp only [Bool.false_eq_true, if_false, hwc, if_neg (hwc ·)]
  by_cases hge : b.redundantTimes + 1 ≥ b.shrinkRedundantTimes
  · rw [if_pos hge, if_neg (by omega)]
    refine ⟨?_, rfl⟩
    show -(shrinkDelta _ _ _ _ _) = _
    unfold shrinkDelta
    congr 1
    generalize Rat.floor ((b.totalMaxActivateRequests
      - b.activeRequestCount / (7 / 10)) / p.worker.maxActivateRequests) = d0
    simp only [min_def]
    split_ifs <;> omega
  · rw [if_neg hge, if_pos (by omega)]
    exact ⟨rfl, rfl⟩

/-- Witness for C4 at the concrete scenario-S4 broker (two Ready workers
with one active request each, `redundantTimes = 59`,
`shrinkRedundantTimes = 60`): the shrink fires with delta 1. -/
theorem evaluateWaterLevel_shrink_hysteresis_witness :
    if s4Broker.redundantTimes + 1 < s4Broker.shrinkRedundantTimes then
      (s4Broker.evaluateWaterLevel false).2 = 0
        ∧ (s4Broker.evaluateWaterLevel false).1.redundantTimes
            = s4Broker.redundantTimes + 1
    else
      (s4Broker.evaluateWaterLevel false).2
          = -(min
              (Rat.floor ((s4Broker.totalMaxActivateRequests
                  - s4Broker.activeRequestCount / (7/10))
                / s2Profile.worker.maxActivateRequests))
              ((s4Broker.workerCount : Int)
                - (s4Broker.reservationCount : Int)))
        ∧ (s4Broker.evaluateWaterLevel false).1.redundantTimes = 0 :=
  evaluateWaterLevel_shrink_hysteresis s4Broker s2Profile rfl rfl
    (by
      norm_num [s4Broker, s4Worker, s2Profile, Broker.activeRequestCount,
        Broker.totalMaxActivateRequests, Worker.isRunning])
    (by decide)
    (by decide)

/-- C5 counterexample: a non-disposable broker with no profile and a single
Created worker. The source returns `−this.workers.size = −1`, while the
claim predicts `−workerCount = 0` because the Created worker is not counted
by `workerCount`. -/
theorem evaluateWaterLevel_no_profile_counterexample :
    (drainBroker.evaluateWaterLevel false).2 = -1
    ∧ drainBroker.workerCount = 0
    ∧ drainBroker.data = none
    ∧ drainBroker.disposable = false := by
  decide

/-- C5 amended: for a non-disposable broker with no profile,
`evaluateWaterLevel` returns 0 when `expansionOnly` is true and minus the
total number of workers in the map (`workers.size`, regardless of status)
otherwise. -/
theorem evaluateWaterLevel_no_profile (b : Broker) (expansionOnly : Bool)
    (hdisp : b.disposable = false) (hd : b.data = none) :
    (b.evaluateWaterLevel expansionOnly).2
      = if expansionOnly then 0 else -(b.workers.length : Int) := by
  unfold Broker.evaluateWaterLevel
  rw [hd, hdisp]
  cases expansionOnly <;> simp

/-- Witness for the amended C5 at the concrete profile-less broker. -/
theorem evaluateWaterLevel_no_profile_witness :
    (drainBroker.evaluateWaterLevel false).2
      = if false then 0 else -(drainBroker.workers.length : Int) :=
  evaluateWaterLevel_no_profile drainBroker false rfl rfl

/-- C3 counterexample: in scenario S2 (two Ready workers, each with 10 of 10
active requests, `maxActivateRequests = 10`, `replicaCountLimit = 10`) the
source computes `ceil((20/0.7 − 20)/10) = ceil(6/7) = 1`, not the 3 stated
by the claim. -/
theorem autoScale_s2_counterexample :
    (s2Broker.evaluateWaterLevel false).2 = 1 ∧ (1 : Int) ≠ 3 :=
  ⟨s2Broker_eval_delta_eq_one, by decide⟩

/-- C3 amended: in scenario S2 one autoScale cycle computes a need of 1
extra worker and launches 1: the broker's `evaluateWaterLevel` delta is 1
and (per the spec-modelled expansion admission check against the
6 × 512 MiB pool) `tryBatchLaunch` is invoked with count 1. -/
theorem autoScale_s2_delta_and_launch_count :
    (s2Broker.evaluateWaterLevel false).2 = 1
    ∧ autoScaleExpandCount (s2Broker.evaluateWaterLevel false).2
        s2Broker.memoryLimit s2Broker.virtualMemory (6 * 536870912) = 1 := by
  refine ⟨s2Broker_eval_delta_eq_one, ?_⟩
  rw [s2Broker_eval_delta_eq_one]
  norm_num [autoScaleExpandCount, Broker.memoryLimit, Broker.virtualMemory,
    Broker.workerCount, s2Broker, s2Worker, s2Profile, Worker.isRunning]

end WaterLevelClaims

section ReadyClaims

open Noslate

/-- C6 counterexample: the `readyTimeout` timer is armed inside `ready()`,
not at registration. With registration at time 0, `initializationTimeout =
1000` and `ready()` first awaited at time 500, nothing happens at time
1100 = registration + timeout + 100 (the worker is still Created and the
deferred still pending); the armed deadline is 1600 = call time + timeout +
100, and only there does the Stopped transition and rejection occur. -/
theorem ready_timeout_window_counterexample :
    (callReady (mkRegisteredWorker 0 1000) 500).readyTimeout = some 1600
    ∧ fireReadyTimeout (callReady (mkRegisteredWorker 0 1000) 500) 1100
        = callReady (mkRegisteredWorker 0 1000) 500
    ∧ (callReady (mkRegisteredWorker 0 1000) 500).status
        = ContainerStatus.Created
    ∧ (callReady (mkRegisteredWorker 0 1000) 500).deferred
        = DeferredState.pending
    ∧ (fireReadyTimeout (callReady (mkRegisteredWorker 0 1000) 500)
        1600).status = ContainerStatus.Stopped := by
  decide

/-- C6 amended: for a registered worker that receives no `ContainerInstalled`
event, the initialization-timeout window is measured from the time `ready()`
is first called: the timer is armed at `callTime + initializationTimeout +
100`, firing it moves the worker to Stopped and rejects the ready deferred,
and the fired timer is disarmed so no second transition or rejection can
occur. -/
theorem ready_timeout_window_from_call (registerTime τ callTime : Int) :
    (callReady (mkRegisteredWorker registerTime τ) callTime).readyTimeout
        = some (callTime + τ + 100)
    ∧ (fireReadyTimeout (callReady (mkRegisteredWorker registerTime τ)
          callTime) (callTime + τ + 100)).status = ContainerStatus.Stopped
    ∧ (fireReadyTimeout (callReady (mkRegisteredWorker registerTime τ)
          callTime) (callTime + τ + 100)).deferred = DeferredState.rejected
    ∧ ∀ t, fireReadyTimeout
        (fireReadyTimeout (callReady (mkRegisteredWorker registerTime τ)
          callTime) (callTime + τ + 100)) t
        = fireReadyTimeout (callReady (mkRegisteredWorker registerTime τ)
            callTime) (callTime + τ + 100) := by
  have harm : (callReady (mkRegisteredWorker registerTime τ) callTime)
      = { status := .Created, registerTime := registerTime,
          initializationTimeout := τ, deferred := .pending,
          readyTimeout := some (callTime + τ + 100) } := by
    simp [callReady, mkRegisteredWorker, ContainerStatus.val]
  rw [harm]
  refine ⟨rfl, ?_, ?_, ?_⟩
  · simp [fireReadyTimeout, updateContainerStatus, settle, ContainerStatus.val]
  · simp [fireReadyTimeout, updateContainerStatus, settle, ContainerStatus.val]
  · intro t
    simp [fireReadyTimeout, updateContainerStatus, settle, ContainerStatus.val]

end ReadyClaims

section TurfStopClaims

open Noslate

/-- C8 counterexample: a non-retryable, non-ignorable error (EINVAL) on the
initial graceful attempt is rethrown by `Turf.stop`, so `stop` does reject,
contradicting the claim that any other error is logged and swallowed. -/
theorem turfStop_counterexample :
    turfStop (fun _ => turfEINVAL)
      = ([StopAction.graceful], some turfEINVAL) := by
  decide

/-- C8 amended: `Turf.stop` treats ECHILD and ENOENT (and success) on the
graceful attempt as success; on EAGAIN it retries with force up to 3 times,
sleeping 1 second before each forced attempt, and never rejects once the
retry loop is entered (errors there are logged and swallowed); but a
non-ignorable, non-retryable error on the initial graceful attempt is
propagated to the caller. -/
theorem turfStop_retry_behavior :
    (∀ att : Nat → Int, att 0 = 0 →
      turfStop att = ([StopAction.graceful], none))
    ∧ (∀ (att : Nat → Int) (c : Int), c ∈ turfStopIgnorableCodes →
        att 0 = c → turfStop att = ([StopAction.graceful], none))
    ∧ (∀ att : Nat → Int, att 0 ∈ turfStopRetryableCodes →
        (turfStop att).2 = none)
    ∧ turfStop (fun _ => turfEAGAIN)
        = ([StopAction.graceful, StopAction.sleep1s, StopAction.forceStop,
            StopAction.sleep1s, StopAction.forceStop, StopAction.sleep1s,
            StopAction.forceStop], none)
    ∧ (∀ (att : Nat → Int) (c : Int), att 0 = c → c ≠ 0 →
        c ∉ turfStopIgnorableCodes → c ∉ turfStopRetryableCodes →
        turfStop att = ([StopAction.graceful], some c)) := by
  refine ⟨?_, ?_, ?_, ?_, ?_⟩
  · intro att h
    unfold turfStop
    rw [show turfStopOnce (att 0) = none by rw [h]; rfl]
  · intro att c hc h
    unfold turfStop
    rw [show turfStopOnce (att 0) = none by
      rw [h]; unfold turfStopOnce
      fin_cases hc <;> decide]
  · intro att h
    have hc : att 0 = turfEAGAIN := by
      simpa [turfStopRetryableCodes] using h
    rw [turfStop_some att turfEAGAIN (by rw [hc]; decide),
      if_neg (by decide)]
    exact stopRetryLoop_swallows att 1 3
  · decide
  · intro att c h h0 hig hre
    rw [turfStop_some att c (by
        rw [h]; unfold turfStopOnce; rw [if_neg h0, if_neg hig]),
      if_pos hre]

/-- Witness for the amended C8 at concrete code sequences: success,
ignorable ECHILD, all-EAGAIN (never rejects), and an EINVAL graceful
failure that propagates. -/
theorem turfStop_retry_behavior_witness :
    turfStop (fun _ => 0) = ([StopAction.graceful], none)
    ∧ turfStop (fun _ => turfECHILD) = ([StopAction.graceful], none)
    ∧ (turfStop (fun _ => turfEAGAIN)).2 = none
    ∧ turfStop (fun _ => turfEINVAL)
        = ([StopAction.graceful], some turfEINVAL) :=
  ⟨turfStop_retry_behavior.1 _ rfl,
    turfStop_retry_behavior.2.1 _ turfECHILD (by decide) rfl,
    turfStop_retry_behavior.2.2.1 _ (by decide),
    turfStop_retry_behavior.2.2.2.2 _ turfEINVAL rfl (by decide) (by decide)
      (by decide)⟩

end TurfStopClaims

section StarterClaims

open Noslate

/-- C9: for a worker launched with `inspect = true` from a profile whose
`resourceLimit.memory` is `m`, the `linux.resources.memory.limit` written
into the bundle's `config.json` equals `100 × m`, while the broker's
`memoryLimit` and `virtualMemory` used for capacity accounting stay at the
original `m`; with `inspect = false` the spec limit equals `m`. -/
theorem inspect_memory_limit_spec_only (template m : Rat)
    (b : Broker) (p : ProfileData)
    (hd : b.data = some p) (hm : p.memory = some m) :
    doStartSpecMemoryLimit template p.memory true = 100 * m
    ∧ doStartSpecMemoryLimit template p.memory false = m
    ∧ b.memoryLimit = m
    ∧ b.virtualMemory = (b.workerCount : Rat) * m := by
  refine ⟨?_, ?_, ?_, ?_⟩
  · simp [doStartSpecMemoryLimit, hm, mul_comm]
  · simp [doStartSpecMemoryLimit, hm]
  · simp [Broker.memoryLimit, hd, hm]
  · simp [Broker.virtualMemory, Broker.memoryLimit, hd, hm]

/-- Witness for C9 at the scenario-S2 broker and profile (memory 512 MiB),
with an arbitrary template limit of 200. -/
theorem inspect_memory_limit_spec_only_witness :
    doStartSpecMemoryLimit 200 s2Profile.memory true = 100 * 536870912
    ∧ doStartSpecMemoryLimit 200 s2Profile.memory false = 536870912
    ∧ s2Broker.memoryLimit = 536870912
    ∧ s2Broker.virtualMemory = (s2Broker.workerCount : Rat) * 536870912 :=
  inspect_memory_limit_spec_only 200 536870912 s2Broker s2Profile rfl rfl

end StarterClaims

section SyncClaims

open Noslate

/-- C10: `Broker.sync` never adds or removes workers — the multiset (hence
set) of worker names is unchanged; each surviving worker keeps its name,
credential, status and register time; a worker matched by an incoming stat
(looked up by name) has its data replaced by that stat, a worker with no
matching stat has its data set to null; a stat matching no worker creates
nothing (immediate from the name preservation). -/
theorem broker_sync_frame (b : Broker) (d : Option ProfileData)
    (stats : List WorkerStats) (b' : Broker)
    (hnd : (b.workers.map Worker.name).Nodup)
    (hsync : b.sync d stats = some b') :
    (b'.workers.map Worker.name).Perm (b.workers.map Worker.name)
    ∧ ∀ w' ∈ b'.workers, ∃ w ∈ b.workers,
        w'.name = w.name ∧ w'.credential = w.credential
        ∧ w'.containerStatus = w.containerStatus
        ∧ w'.registerTime = w.registerTime
        ∧ w'.data = (stats.find? (fun s => s.name = w.name)).map
            (fun s => { maxActivateRequests := s.maxActivateRequests
                        activeRequestCount := s.activeRequestCount }) := by
  simp only [Broker.sync] at hsync
  rcases Option.map_eq_some'.mp hsync with ⟨pool, hpool, rfl⟩
  constructor
  · show ((((syncMatch stats b.workers).1
      ++ (syncMatch stats b.workers).2.map (fun w => w.sync none)).map
        Worker.name)).Perm _
    have hname : ((syncMatch stats b.workers).2.map
          (fun w => w.sync none)).map Worker.name
        = (syncMatch stats b.workers).2.map Worker.name := by
      simp [Worker.sync]
    rw [List.map_append, hname, ← List.map_append]
    exact syncMatch_names_perm stats b.workers
  · intro w' hw'
    have hw'' : w' ∈ (syncMatch stats b.workers).1
        ++ (syncMatch stats b.workers).2.map (fun w => w.sync none) := hw'
    rcases List.mem_append.mp hw'' with hw1 | hw2
    · exact syncMatch_matched_spec stats b.workers hnd w' hw1
    · obtain ⟨w, hwmem, rfl⟩ := List.mem_map.mp hw2
      obtain ⟨hmem, hnone⟩ := syncMatch_unmatched_spec stats b.workers hnd w hwmem
      exact ⟨w, hmem, rfl, rfl, rfl, rfl, by rw [hnone]; rfl⟩

/-- Witness for C10: syncing the fresh broker (one Created worker `hello`)
with a stats list containing a matching stat and a `ghost` stat yields the
expected broker: same single worker with data replaced, `ghost` ignored. -/
theorem broker_sync_frame_witness :
    (syncedBroker.workers.map Worker.name).Perm
      (freshBroker.workers.map Worker.name)
    ∧ ∀ w' ∈ syncedBroker.workers, ∃ w ∈ freshBroker.workers,
        w'.name = w.name ∧ w'.credential = w.credential
        ∧ w'.containerStatus = w.containerStatus
        ∧ w'.registerTime = w.registerTime
        ∧ w'.data = (syncStats.find? (fun s => s.name = w.name)).map
            (fun s => { maxActivateRequests := s.maxActivateRequests
                        activeRequestCount := s.activeRequestCount }) :=
  broker_sync_frame freshBroker (some s2Profile) syncStats syncedBroker
    (by decide)
    (by
      norm_num [Broker.sync, syncMatch, syncPool, Worker.sync,
        Worker.isInitializating, freshBroker, syncedBroker, syncStats,
        s2Profile])

end SyncClaims

section StartingPoolClaims

open Noslate

/-- C7 counterexample: a status update does not touch the starting pool.
Starting from a freshly registered broker (one Created worker `hello` with
its pool entry), `updateWorkerContainerStatus "hello" Ready` leaves the pool
entry in place while the worker is no longer Created, violating the claimed
invariant right after a status update. -/
theorem startingPool_status_update_counterexample :
    freshBroker.startingPoolCreated
    ∧ ¬ (freshBroker.updateWorkerContainerStatus "hello"
          ContainerStatus.Ready).startingPoolCreated
    ∧ (freshBroker.updateWorkerContainerStatus "hello"
          ContainerStatus.Ready).startingPool = freshBroker.startingPool := by
  refine ⟨by decide, ?_, by decide⟩
  intro h
  have := h ("hello",
    { credential := "world", estimateRequestLeft := 10,
      maxActivateRequests := 10 }) (by decide)
  revert this
  decide

/-- C7 amended: every starting-pool entry always has a corresponding worker
in the worker map; the entry is created on register and removed by sync (or
unregister) once its worker has left Created. The stronger form — the
backing worker is still Created — is established by register, preserved by
unregister, and restored by every sync; but a status update, which does not
touch the pool, can leave an entry whose worker is no longer Created until
the next sync prunes it. -/
theorem startingPool_invariant_maintenance :
    (∀ (b b' : Broker) (n c : String) (t : Int),
      b.register n c t = some b' →
      b.startingPoolCreated → b'.startingPoolCreated)
    ∧ (∀ (b : Broker) (n : String), b.startingPoolCreated →
        (b.unregister n).startingPoolCreated)
    ∧ (∀ (b : Broker) (n : String) (s : ContainerStatus),
        b.startingPoolBacked →
        (b.updateWorkerContainerStatus n s).startingPoolBacked)
    ∧ (∀ (b : Broker) (d : Option ProfileData) (stats : List WorkerStats),
        b.startingPoolBacked →
        ∃ b', b.sync d stats = some b' ∧ b'.startingPoolCreated) := by
  refine ⟨?_, ?_, ?_, ?_⟩
  · intro b b' n c t hreg hb
    unfold Broker.register at hreg
    cases hd : b.data with
    | none => rw [hd] at hreg; simp at hreg
    | some data =>
      rw [hd] at hreg
      obtain rfl := Option.some.inj hreg
      intro e he
      rcases poolSet_mem e he with rfl | ⟨he', hne⟩
      · exact ⟨_, workersSet_self_mem _ _, rfl, rfl⟩
      · obtain ⟨w0, hw0, hwn, hwc⟩ := hb e he'
        exact ⟨w0, workersSet_mem_other hw0 (by rw [hwn]; exact hne), hwn,
          hwc⟩
  · intro b n hb e he
    obtain ⟨he', hne⟩ := List.mem_filter.mp he
    obtain ⟨w0, hw0, hwn, hwc⟩ := hb e he'
    refine ⟨w0, List.mem_filter.mpr ⟨hw0, ?_⟩, hwn, hwc⟩
    simpa [hwn] using hne
  · intro b n s hb e he
    obtain ⟨w0, hw0, hwn⟩ := hb e he
    refine ⟨if w0.name = n then
        { w0 with containerStatus := updateContainerStatus w0.containerStatus s }
      else w0, List.mem_map.mpr ⟨w0, hw0, rfl⟩, ?_⟩
    split <;> exact hwn
  · intro b d stats hb
    have hperm := syncMatch_names_perm stats b.workers
    have hname : ((syncMatch stats b.workers).2.map
          (fun w => w.sync none)).map Worker.name
        = (syncMatch stats b.workers).2.map Worker.name := by
      simp [Worker.sync]
    have hbacked' : ∀ e ∈ b.startingPool,
        ∃ w ∈ (syncMatch stats b.workers).1
          ++ (syncMatch stats b.workers).2.map (fun w => w.sync none),
          w.name = e.1 := by
      intro e he
      obtain ⟨w0, hw0, hwn⟩ := hb e he
      have hmemname : e.1 ∈ ((syncMatch stats b.workers).1
          ++ (syncMatch stats b.workers).2.map (fun w => w.sync none)).map
            Worker.name := by
        rw [List.map_append, hname, ← List.map_append]
        exact hperm.mem_iff.mpr (List.mem_map.mpr ⟨w0, hw0, hwn⟩)
      obtain ⟨w, hw, hwn'⟩ := List.mem_map.mp hmemname
      exact ⟨w, hw, hwn'⟩
    have hsome := syncPool_isSome b.startingPool _ hbacked'
    obtain ⟨pool, hpool⟩ := Option.isSome_iff_exists.mp hsome
    refine ⟨{ b with
        data := d
        workers := (syncMatch stats b.workers).1
          ++ (syncMatch stats b.workers).2.map (fun w => w.sync none)
        startingPool := pool }, ?_, ?_⟩
    · show (syncPool b.startingPool _).map _ = some _
      rw [hpool]
      rfl
    · intro e he
      obtain ⟨w, hw, hwn, hwc⟩ := syncPool_spec _ _ _ hpool e he
      exact ⟨w, hw, hwn, hwc⟩

/-- Witness for the amended C7: the fresh broker's pool is backed, and
syncing it (with the profile still present and no stats) yields a broker
whose pool entries all reference Created workers. -/
theorem startingPool_invariant_maintenance_witness :
    ∃ b', freshBroker.sync (some s2Profile) [] = some b'
      ∧ b'.startingPoolCreated :=
  startingPool_invariant_maintenance.2.2.2 freshBroker (some s2Profile) []
    (by decide)

end StartingPoolClaims

/-- C1: over any sequence of `updateContainerStatus`,
`updateContainerStatusByEvent` and `switchTo` calls, a worker's
`containerStatus` never regresses in the ordering
Created < Ready < PendingStop < Stopped < Unknown; moreover a single
`updateContainerStatus` call with a strictly lower status leaves the status
unchanged, and any other `updateContainerStatus` call sets the requested
status. -/
theorem containerStatus_monotone_no_regress :
    (∀ (w : Noslate.WorkerTimed) (ops : List Noslate.WorkerStatusOp),
      w.status.val ≤ (Noslate.applyStatusOps w ops).status.val)
    ∧ (∀ cur new : Noslate.ContainerStatus,
        new.val < cur.val → Noslate.updateContainerStatus cur new = cur)
    ∧ (∀ cur new : Noslate.ContainerStatus,
        ¬ new.val < cur.val → Noslate.updateContainerStatus cur new = new) := by
  refine ⟨fun w ops => Noslate.applyStatusOps_val_le w ops, ?_, ?_⟩
  · intro cur new h
    unfold Noslate.updateContainerStatus
    simp [h]
  · intro cur new h
    unfold Noslate.updateContainerStatus
    simp [h]

/-- Witness for C1 at concrete inputs: a regressing update (Ready after
Stopped) is rejected, and a non-regressing update (Stopped after Ready) is
applied. -/
theorem containerStatus_monotone_no_regress_witness :
    Noslate.updateContainerStatus .Stopped .Ready = .Stopped
    ∧ Noslate.updateContainerStatus .Ready .Stopped = .Stopped := by
  exact ⟨containerStatus_monotone_no_regress.2.1 .Stopped .Ready (by decide),
    containerStatus_monotone_no_regress.2.2 .Ready .Stopped (by decide)⟩
